import Mathlib

/-!
# Student CRUD service (`main.go`): embedding and checked properties

The five handlers of `main.go` are embedded as pure functions from the request
(path parameter, the JSON value of the body and the raw text the body wrote
for a value), the environment inputs (the identifier produced
by `primitive.NewObjectID`, a possible driver-level failure of the store call)
and the contents of the `school.students` collection to the HTTP response and
the new contents of the collection.

The libraries the handlers call (`encoding/json`, gin's `ShouldBindJSON` and
`c.JSON`, the MongoDB driver's `primitive.ObjectID` and collection methods) are
not part of the repository; the definitions that stand for them are marked
"Library model" and describe the behaviour the handlers rely on.
-/

namespace StudentAPI

/-! ## `primitive.ObjectID` -/

/-- Library model: `primitive.ObjectID`, an array of twelve bytes. -/
structure ObjectID where
  bytes : List (Fin 256)
  size : bytes.length = 12
deriving DecidableEq

/-- Library model: `primitive.NilObjectID`, the zero value of `ObjectID`. -/
def NilObjectID : ObjectID := ⟨List.replicate 12 0, rfl⟩

/-- Library model: `ObjectID.IsZero`. -/
def ObjectID.IsZero (id : ObjectID) : Bool := decide (id = NilObjectID)

/-- Lower-case hexadecimal digit of a nibble, as written by `hex.EncodeToString`. -/
def hexDigit (n : Fin 16) : Char :=
  if n.val < 10 then Char.ofNat (48 + n.val) else Char.ofNat (87 + n.val)

/-- Value of a hexadecimal digit, both cases accepted, as read by `hex.Decode`. -/
def hexVal (c : Char) : Option (Fin 16) :=
  if 48 ≤ c.toNat ∧ c.toNat ≤ 57 then some (Fin.ofNat (c.toNat - 48))
  else if 97 ≤ c.toNat ∧ c.toNat ≤ 102 then some (Fin.ofNat (c.toNat - 87))
  else if 65 ≤ c.toNat ∧ c.toNat ≤ 70 then some (Fin.ofNat (c.toNat - 55))
  else none

/-- The byte made of a high and a low nibble. -/
def mkByte (h l : Fin 16) : Fin 256 := ⟨h.val * 16 + l.val, by omega⟩

/-- Library model: `hex.EncodeToString` on a byte sequence. -/
def hexEncode : List (Fin 256) → List Char
  | [] => []
  | b :: bs =>
    hexDigit ⟨b.val / 16, by omega⟩ :: hexDigit ⟨b.val % 16, by omega⟩ :: hexEncode bs

/-- Library model: `hex.Decode`; `none` stands for its error (odd length or a
character that is no hexadecimal digit). -/
def hexDecode : List Char → Option (List (Fin 256))
  | [] => some []
  | [_] => none
  | a :: b :: rest =>
    match hexVal a, hexVal b, hexDecode rest with
    | some h, some l, some bs => some (mkByte h l :: bs)
    | _, _, _ => none

/-- Library model: `ObjectID.Hex`, the 24-character lower-case hex string. -/
def ObjectID.Hex (id : ObjectID) : String := String.mk (hexEncode id.bytes)

/-- Library model: `primitive.ObjectIDFromHex`. The second component is the
error (`none` for `nil`); on error the identifier is `NilObjectID`. Go's
`len(s)` counts bytes. -/
def ObjectIDFromHex (s : String) : ObjectID × Option String :=
  if s.utf8ByteSize ≠ 24 then (NilObjectID, some "the provided hex string is not a valid ObjectID")
  else
    match hexDecode s.data with
    | none => (NilObjectID, some "encoding/hex: invalid byte")
    | some bs =>
      if h : bs.length = 12 then (⟨bs, h⟩, none)
      else (NilObjectID, some "the provided hex string is not a valid ObjectID")

/-! ## JSON values, request bodies and responses -/

/-- Library model: a JSON value as `encoding/json` sees it. A number keeps its
literal; the members of an object keep their order and their duplicates. -/
inductive JSON where
  | null
  | bool (b : Bool)
  | num (literal : String)
  | str (s : String)
  | arr (items : List JSON)
  | obj (members : List (String × JSON))

/-- The `Student` struct of `main.go`. -/
structure Student where
  ID : ObjectID
  Name : String
  Email : String
deriving DecidableEq

/-- The zero value of `Student`, what `var student Student` declares. -/
def Student.zero : Student := ⟨NilObjectID, "", ""⟩

/-- Library model: whether an object key selects the struct field with the
given (lower-case) JSON name. `encoding/json` accepts a case-insensitive match;
for the names `id`, `name` and `email` only ASCII letters fold onto them. -/
def keyIs (key field : String) : Bool := key.data.map Char.toLower == field.data

/-- Library model: decoding a JSON value into a Go `string` field that holds
`cur`: `null` leaves the field as it is, a string sets it, anything else is an
`UnmarshalTypeError`. -/
def decodeString (cur : String) : JSON → Except String String
  | .null => .ok cur
  | .str s => .ok s
  | _ => .error "json: cannot unmarshal value into Go struct field of type string"

/-- Library model: the hex text of an identifier inside a JSON body, as
`ObjectID.UnmarshalJSON` reads it: the empty string gives `NilObjectID`,
otherwise 24 hexadecimal digits are required. -/
def ObjectID.ofJSONText (s : String) : Except String ObjectID :=
  if s.utf8ByteSize = 0 then .ok NilObjectID
  else if s.utf8ByteSize ≠ 24 then
    .error "cannot unmarshal into an ObjectID, the length must be 24"
  else
    match hexDecode s.data with
    | none => .error "encoding/hex: invalid byte"
    | some bs =>
      if h : bs.length = 12 then .ok ⟨bs, h⟩
      else .error "cannot unmarshal into an ObjectID, the length must be 24"

/-- The last value stored under `key` in a member list, as a Go map built from
the members holds it. -/
def lastMember (key : String) : List (String × JSON) → Option JSON
  | [] => none
  | (k, v) :: rest =>
    match lastMember key rest with
    | some w => some w
    | none => if k = key then some v else none

/-- Library model: the extended-JSON branch of `ObjectID.UnmarshalJSON`: a
string is read as hex text, an object is read through its `$oid` member,
anything else is an error. -/
def ObjectID.ofExtendedJSON : JSON → Except String ObjectID
  | .str s => ObjectID.ofJSONText s
  | .obj ms =>
    match lastMember "$oid" ms with
    | some (.str s) => ObjectID.ofJSONText s
    | _ => .error "not an extended JSON ObjectID"
  | _ => .error "not an extended JSON ObjectID"

/-- Library model: `ObjectID.UnmarshalJSON` on a field that holds `cur`. `raw`
is the text of the value as the request wrote it, which `encoding/json` hands
to the method. `null` leaves the field; a value whose raw text is exactly
twelve bytes is copied as it stands (`case 12: copy(id[:], b)`), quotes
included; any other value is read as extended JSON. -/
def ObjectID.UnmarshalJSON (raw : List (Fin 256)) (cur : ObjectID) (v : JSON) :
    Except String ObjectID :=
  match v with
  | .null => .ok cur
  | _ =>
    if h : raw.length = 12 then .ok ⟨raw, h⟩
    else ObjectID.ofExtendedJSON v

/-- Library model: `encoding/json` storing one object member into a `Student`
under the tags `json:"id"`, `json:"name"`, `json:"email"`; a key that selects
no field is skipped. `rawText` gives the text the request wrote for a value;
only the identifier's decoder looks at it. -/
def Student.setMember (rawText : JSON → List (Fin 256)) (st : Student) (kv : String × JSON) :
    Except String Student :=
  if keyIs kv.1 "id" then
    match ObjectID.UnmarshalJSON (rawText kv.2) st.ID kv.2 with
    | .ok i => .ok { st with ID := i }
    | .error e => .error e
  else if keyIs kv.1 "name" then
    match decodeString st.Name kv.2 with
    | .ok n => .ok { st with Name := n }
    | .error e => .error e
  else if keyIs kv.1 "email" then
    match decodeString st.Email kv.2 with
    | .ok m => .ok { st with Email := m }
    | .error e => .error e
  else .ok st

/-- Members of an object stored one after the other; the first error ends the
decoding. -/
def Student.setMembers (rawText : JSON → List (Fin 256)) (st : Student) :
    List (String × JSON) → Except String Student
  | [] => .ok st
  | kv :: rest =>
    match Student.setMember rawText st kv with
    | .ok st' => Student.setMembers rawText st' rest
    | .error e => .error e

/-- Library model: `encoding/json` decoding a value into a zero `Student`:
`null` leaves it zero, an object fills it member by member, any other value is
an `UnmarshalTypeError`. -/
def Student.UnmarshalJSON (rawText : JSON → List (Fin 256)) : JSON → Except String Student
  | .null => .ok Student.zero
  | .obj ms => Student.setMembers rawText Student.zero ms
  | _ => .error "json: cannot unmarshal value into Go value of type main.Student"

/-- Library model: gin's `c.ShouldBindJSON(&student)`. The body is `none` when
the request carries no JSON value (empty body or a syntax error), else the
JSON value it starts with, and `rawText` gives the text the request wrote for
a value. `Student` has no `binding` tag, so the validation that follows the
decoding accepts every decoded value. -/
def ShouldBindJSON (rawText : JSON → List (Fin 256)) (body : Option JSON) :
    Except String Student :=
  match body with
  | none => .error "invalid request body"
  | some v => Student.UnmarshalJSON rawText v

/-- Library model: `json.Marshal` of a `Student`: the three tagged fields in
declaration order, the identifier as its hex string. -/
def Student.MarshalJSON (s : Student) : JSON :=
  .obj [("id", .str s.ID.Hex), ("name", .str s.Name), ("email", .str s.Email)]

/-- Library model: `json.Marshal` of a one-entry `gin.H` with a string value. -/
def H (key value : String) : JSON := .obj [(key, .str value)]

/-- A Go slice value: `none` is the nil slice (`var students []Student`). -/
abbrev Slice (α : Type) := Option (List α)

/-- Go's `append(s, x)`. -/
def Slice.append {α : Type} : Slice α → α → Slice α
  | none, x => some [x]
  | some xs, x => some (xs ++ [x])

/-- Go's `len(s)`. -/
def Slice.len {α : Type} : Slice α → Nat
  | none => 0
  | some xs => xs.length

/-- The elements of a Go slice. -/
def Slice.elems {α : Type} : Slice α → List α
  | none => []
  | some xs => xs

/-- Library model: `json.Marshal` of a `[]Student`: the nil slice is encoded as
`null`, any other slice as an array. -/
def marshalStudents : Slice Student → JSON
  | none => .null
  | some xs => .arr (xs.map Student.MarshalJSON)

/-- An HTTP response: status code and body (`none` when no body is written). -/
structure Response where
  status : Nat
  body : Option JSON

/-- Library model: gin's `bodyAllowedForStatus`. -/
def bodyAllowedForStatus (code : Nat) : Bool :=
  if 100 ≤ code ∧ code ≤ 199 then false
  else if code = 204 then false
  else if code = 304 then false
  else true

/-- Library model: gin's `c.JSON(code, obj)` with `obj` already encoded. -/
def cJSON (code : Nat) (v : JSON) : Response :=
  ⟨code, if bodyAllowedForStatus code then some v else none⟩

/-! ## The `school.students` collection -/

/-- The documents of the collection in their natural order; each document
`{_id, name, email}` is written as the `Student` it decodes to. -/
abbrev Collection := List Student

/-- The identifiers stored in a collection. -/
def ids (coll : Collection) : List ObjectID := coll.map Student.ID

/-- The BSON document of a `Student` under its `bson` tags. -/
structure Doc where
  id : Option ObjectID
  name : String
  email : String

/-- Library model: BSON encoding of a `Student`: `_id,omitempty` leaves the
identifier out when it is zero. -/
def Student.MarshalBSON (s : Student) : Doc :=
  ⟨if s.ID.IsZero then none else some s.ID, s.Name, s.Email⟩

/-- Library model: `Collection.InsertOne`. `fault` is the failure of the call
itself (connection, server), `driverID` the identifier the driver gives a
document that has no `_id`. A duplicate `_id` is rejected. -/
def InsertOne (fault : Option String) (driverID : ObjectID) (coll : Collection) (d : Doc) :
    Except String Collection :=
  match fault with
  | some e => .error e
  | none =>
    let id := d.id.getD driverID
    if id ∈ ids coll then .error "E11000 duplicate key error collection: school.students"
    else .ok (coll ++ [⟨id, d.name, d.email⟩])

/-- Library model: `Collection.Find` with the empty filter, followed by the
cursor delivering every document. -/
def Find (fault : Option String) (coll : Collection) : Except String (List Student) :=
  match fault with
  | some e => .error e
  | none => .ok coll

/-- Library model: `Collection.FindOne(bson.M{"_id": id}).Decode(&student)`;
the error is `mongo.ErrNoDocuments` when nothing matches. -/
def FindOne (fault : Option String) (coll : Collection) (id : ObjectID) : Except String Student :=
  match fault with
  | some e => .error e
  | none =>
    match coll.find? (fun d => decide (d.ID = id)) with
    | some d => .ok d
    | none => .error "mongo: no documents in result"

/-- The first document with the given `_id` gets the new `name` and `email`. -/
def setFirst (id : ObjectID) (name email : String) : Collection → Collection
  | [] => []
  | d :: ds => if d.ID = id then ⟨d.ID, name, email⟩ :: ds else d :: setFirst id name email ds

/-- The first document with the given `_id` is dropped. -/
def removeFirst (id : ObjectID) : Collection → Collection
  | [] => []
  | d :: ds => if d.ID = id then ds else d :: removeFirst id ds

/-- Library model: `Collection.UpdateOne(bson.M{"_id": id}, bson.M{"$set": d})`.
Nothing matching is no error. On the matched document `$set` writes `name` and
`email`; an `_id` in `d` that differs from the document's is refused by the
server (`_id` is immutable). -/
def UpdateOne (fault : Option String) (coll : Collection) (id : ObjectID) (d : Doc) :
    Except String Collection :=
  match fault with
  | some e => .error e
  | none =>
    match coll.find? (fun x => decide (x.ID = id)) with
    | none => .ok coll
    | some x =>
      match d.id with
      | some j =>
        if j = x.ID then .ok (setFirst id d.name d.email coll)
        else .error "Performing an update on the path _id would modify the immutable field _id"
      | none => .ok (setFirst id d.name d.email coll)

/-- Library model: `Collection.DeleteOne(bson.M{"_id": id})`; nothing matching
is no error. -/
def DeleteOne (fault : Option String) (coll : Collection) (id : ObjectID) :
    Except String Collection :=
  match fault with
  | some e => .error e
  | none => .ok (removeFirst id coll)

/-! ## The handlers of `main.go` -/

/-- The handler `addStudent`. `newID` is what `primitive.NewObjectID()` returns. -/
def addStudent (rawText : JSON → List (Fin 256)) (newID driverID : ObjectID)
    (fault : Option String) (body : Option JSON) (coll : Collection) :
    Response × Collection :=
  match ShouldBindJSON rawText body with
  | .error e => (cJSON 400 (H "error" e), coll)
  | .ok bound =>
    let student : Student := { bound with ID := newID }
    match InsertOne fault driverID coll student.MarshalBSON with
    | .error e => (cJSON 500 (H "error" e), coll)
    | .ok coll' => (cJSON 201 student.MarshalJSON, coll')

/-- The handler `getAllStudents`: `students` starts as the nil slice and grows
by one `append` per document of the cursor. -/
def getAllStudents (fault : Option String) (coll : Collection) : Response × Collection :=
  match Find fault coll with
  | .error e => (cJSON 500 (H "error" e), coll)
  | .ok docs =>
    let students : Slice Student := docs.foldl Slice.append none
    (cJSON 200 (marshalStudents students), coll)

/-- The handler `getStudentByID`: the error of `ObjectIDFromHex` is dropped. -/
def getStudentByID (fault : Option String) (id : String) (coll : Collection) :
    Response × Collection :=
  let objID := (ObjectIDFromHex id).1
  match FindOne fault coll objID with
  | .error _ => (cJSON 404 (H "error" "Student not found"), coll)
  | .ok student => (cJSON 200 student.MarshalJSON, coll)

/-- The handler `updateStudent`. -/
def updateStudent (rawText : JSON → List (Fin 256)) (fault : Option String) (id : String)
    (body : Option JSON) (coll : Collection) : Response × Collection :=
  let objID := (ObjectIDFromHex id).1
  match ShouldBindJSON rawText body with
  | .error e => (cJSON 400 (H "error" e), coll)
  | .ok updatedData =>
    match UpdateOne fault coll objID updatedData.MarshalBSON with
    | .error e => (cJSON 500 (H "error" e), coll)
    | .ok coll' => (cJSON 200 updatedData.MarshalJSON, coll')

/-- The handler `deleteStudent`; `c.JSON(http.StatusNoContent, nil)` encodes
`nil` as `null`, which a 204 response does not carry. -/
def deleteStudent (fault : Option String) (id : String) (coll : Collection) :
    Response × Collection :=
  let objID := (ObjectIDFromHex id).1
  match DeleteOne fault coll objID with
  | .error e => (cJSON 500 (H "error" e), coll)
  | .ok coll' => (cJSON 204 .null, coll')

/-- The handler `healthCheck`. -/
def healthCheck : Response := cJSON 200 (H "status" "UP")

/-! ## Vocabulary of the specification -/

/-- A hexadecimal digit, in either case. -/
def isHexDigit (c : Char) : Bool :=
  ('0' ≤ c && c ≤ '9') || ('a' ≤ c && c ≤ 'f') || ('A' ≤ c && c ≤ 'F')

/-- The specification's well-formed identifier: 24 characters, each a
hexadecimal digit. -/
def IsHexID (s : String) : Bool := s.length == 24 && s.data.all isHexDigit

/-- The members of a body that is a JSON object; any other value has none. -/
def JSON.members : JSON → List (String × JSON)
  | .obj ms => ms
  | _ => []

/-- The text of a JSON string; `none` for any other value. -/
def JSON.text : JSON → Option String
  | .str s => some s
  | _ => none

/-- The value a body gives for a text field: the string of the last member of
that name that holds a string; `none` when the body gives none. -/
def given (field : String) : List (String × JSON) → Option String
  | [] => none
  | (k, v) :: rest =>
    match given field rest with
    | some s => some s
    | none => if keyIs k field then v.text else none

/-- A member that `encoding/json` can store into a `Student`. -/
def decodes (rawText : JSON → List (Fin 256)) (kv : String × JSON) : Bool :=
  match Student.setMember rawText Student.zero kv with
  | .ok _ => true
  | .error _ => false

/-- Collections the service can bring about from the empty collection: any
number of `addStudent`, `updateStudent` and `deleteStudent` calls, whatever
their inputs and outcomes. `primitive.NewObjectID` builds an identifier from
the clock, a per-process random value and a counter; that it does not return
the zero identifier is taken as given. -/
inductive Reachable : Collection → Prop
  | empty : Reachable []
  | create (rawText : JSON → List (Fin 256)) (newID driverID : ObjectID)
      (fault : Option String) (body : Option JSON) (coll : Collection) :
      Reachable coll → newID ≠ NilObjectID →
      Reachable (addStudent rawText newID driverID fault body coll).2
  | update (rawText : JSON → List (Fin 256)) (fault : Option String) (id : String)
      (body : Option JSON) (coll : Collection) :
      Reachable coll → Reachable (updateStudent rawText fault id body coll).2
  | delete (fault : Option String) (id : String) (coll : Collection) :
      Reachable coll → Reachable (deleteStudent fault id coll).2

/-! ## Histories of create and delete requests -/

/-- A create request (with the raw text of its body, and the identifiers and
the failure the environment supplies) or a delete request for the hex string
of an identifier. -/
inductive Op where
  | create (rawText : JSON → List (Fin 256)) (newID driverID : ObjectID)
      (fault : Option String) (body : Option JSON)
  | delete (fault : Option String) (id : ObjectID)

/-- The handler call an operation stands for. -/
def Op.run (coll : Collection) : Op → Response × Collection
  | .create t n d f b => addStudent t n d f b coll
  | .delete f i => deleteStudent f i.Hex coll

/-- The collection after a sequence of operations. -/
def runAll (coll : Collection) : List Op → Collection
  | [] => coll
  | op :: rest => runAll (op.run coll).2 rest

/-- The records the create requests of a history ask for, in order: the
generated identifier with the name and email of the bound body. -/
def createdRecords : List Op → List Student
  | [] => []
  | .create t n _ _ b :: rest =>
    (match ShouldBindJSON t b with
      | .ok bound => [⟨n, bound.Name, bound.Email⟩]
      | .error _ => []) ++ createdRecords rest
  | .delete _ _ :: rest => createdRecords rest

/-- The identifiers the delete requests of a history target. -/
def deletedIDs : List Op → List ObjectID
  | [] => []
  | .create _ _ _ _ _ :: rest => deletedIDs rest
  | .delete _ i :: rest => i :: deletedIDs rest

/-- The number of create requests of a history. -/
def numCreates : List Op → Nat
  | [] => 0
  | .create _ _ _ _ _ :: rest => numCreates rest + 1
  | .delete _ _ :: rest => numCreates rest

/-- A history of successful operations, run from `coll` with `seen` the
identifiers generated so far: every create responds 201 and its generated
identifier is new and not zero, every delete responds 204 and targets an
identifier generated earlier. -/
def Successful (coll : Collection) (seen : List ObjectID) : List Op → Prop
  | [] => True
  | .create t n d f b :: rest =>
    n ≠ NilObjectID ∧ n ∉ seen ∧ (addStudent t n d f b coll).1.status = 201
      ∧ Successful (addStudent t n d f b coll).2 (n :: seen) rest
  | .delete f i :: rest =>
    i ∈ seen ∧ (deleteStudent f i.Hex coll).1.status = 204
      ∧ Successful (deleteStudent f i.Hex coll).2 seen rest

/-! ## Sample values -/

/-- The UTF-8 bytes of a character. -/
def utf8Bytes (c : Char) : List (Fin 256) :=
  if c.toNat < 128 then [Fin.ofNat c.toNat]
  else if c.toNat < 2048 then [Fin.ofNat (192 + c.toNat / 64), Fin.ofNat (128 + c.toNat % 64)]
  else if c.toNat < 65536 then
    [Fin.ofNat (224 + c.toNat / 4096), Fin.ofNat (128 + c.toNat / 64 % 64),
      Fin.ofNat (128 + c.toNat % 64)]
  else
    [Fin.ofNat (240 + c.toNat / 262144), Fin.ofNat (128 + c.toNat / 4096 % 64),
      Fin.ofNat (128 + c.toNat / 64 % 64), Fin.ofNat (128 + c.toNat % 64)]

/-- The bytes of a text. -/
def textBytes : List Char → List (Fin 256)
  | [] => []
  | c :: cs => utf8Bytes c ++ textBytes cs

mutual
/-- The raw text of a value that the request wrote compactly: no white space,
strings between quotes as they stand (strings that need no escape). -/
def plainText : JSON → List (Fin 256)
  | .null => textBytes "null".data
  | .bool b => if b then textBytes "true".data else textBytes "false".data
  | .num literal => textBytes literal.data
  | .str s => 34 :: textBytes s.data ++ [34]
  | .arr items => 91 :: plainItems items ++ [93]
  | .obj members => 123 :: plainMembers members ++ [125]
/-- The items of an array, separated by commas. -/
def plainItems : List JSON → List (Fin 256)
  | [] => []
  | [x] => plainText x
  | x :: y :: rest => plainText x ++ 44 :: plainItems (y :: rest)
/-- The members of an object, separated by commas. -/
def plainMembers : List (String × JSON) → List (Fin 256)
  | [] => []
  | [(k, v)] => 34 :: textBytes k.data ++ [34, 58] ++ plainText v
  | (k, v) :: m :: rest =>
    34 :: textBytes k.data ++ [34, 58] ++ plainText v ++ 44 :: plainMembers (m :: rest)
end

/-- An identifier as `NewObjectID` produces them. -/
def sampleID : ObjectID := ⟨[101, 66, 16, 240, 1, 2, 3, 4, 5, 0, 0, 1], rfl⟩

/-- A second identifier. -/
def otherID : ObjectID := ⟨[101, 66, 16, 240, 1, 2, 3, 4, 5, 0, 0, 2], rfl⟩

/-- The identifier made of the twelve bytes of the text `"0123456789"`, quotes
included. -/
def quotedDigits : ObjectID := ⟨[34, 48, 49, 50, 51, 52, 53, 54, 55, 56, 57, 34], rfl⟩

/-- The payload of `TestAddStudent`. -/
def johnDoe : JSON := .obj [("name", .str "John Doe"), ("email", .str "john@example.com")]

/-- A store of two records. -/
def sampleStore : Collection :=
  [⟨sampleID, "John Doe", "john@example.com"⟩, ⟨otherID, "Jane Roe", "jane@example.com"⟩]

/-- A history: two creates, then the delete of the first created record. -/
def sampleHistory : List Op :=
  [Op.create plainText sampleID otherID none (some johnDoe),
    Op.create plainText otherID sampleID none
      (some (.obj [("name", .str "Jane Roe"), ("email", .str "jane@example.com")])),
    Op.delete none sampleID]

/-! ## Properties

### Hex round trip -/

theorem hexVal_hexDigit (n : Fin 16) : hexVal (hexDigit n) = some n := by
  revert n; decide

theorem mkByte_split (b : Fin 256) :
    mkByte ⟨b.val / 16, by omega⟩ ⟨b.val % 16, by omega⟩ = b := by
  apply Fin.ext
  simp only [mkByte]
  omega

theorem hexDecode_hexEncode (bs : List (Fin 256)) : hexDecode (hexEncode bs) = some bs := by
  induction bs with
  | nil => rfl
  | cons b bs ih =>
    simp only [hexEncode, hexDecode, hexVal_hexDigit, ih, mkByte_split]

theorem hexDigit_utf8Size (n : Fin 16) : (hexDigit n).utf8Size = 1 := by
  revert n; decide

theorem utf8ByteSize_hexEncode (bs : List (Fin 256)) :
    (String.mk (hexEncode bs)).utf8ByteSize = 2 * bs.length := by
  induction bs with
  | nil => rfl
  | cons b bs ih =>
    simp only [hexEncode, String.utf8ByteSize, String.utf8ByteSize.go, List.length_cons,
      hexDigit_utf8Size] at ih ⊢
    omega

theorem ObjectIDFromHex_Hex (id : ObjectID) : ObjectIDFromHex id.Hex = (id, none) := by
  obtain ⟨bs, h⟩ := id
  have h1 : (String.mk (hexEncode bs)).utf8ByteSize = 24 := by
    rw [utf8ByteSize_hexEncode, h]
  simp only [ObjectIDFromHex, ObjectID.Hex, h1, hexDecode_hexEncode, h, ne_eq, not_true_eq_false,
    if_false, dite_true]

theorem length_hexEncode (bs : List (Fin 256)) : (hexEncode bs).length = 2 * bs.length := by
  induction bs with
  | nil => rfl
  | cons b bs ih => simp only [hexEncode, List.length_cons, ih]; omega

theorem Hex_length (id : ObjectID) : id.Hex.length = 24 := by
  obtain ⟨bs, h⟩ := id
  simp only [ObjectID.Hex, String.length, length_hexEncode, h]

/-! ### Lookups in a collection -/

theorem find_none_of_not_mem (id : ObjectID) (coll : Collection) (h : id ∉ ids coll) :
    coll.find? (fun d => decide (d.ID = id)) = none := by
  rw [List.find?_eq_none]
  intro d hd
  simp only [decide_eq_true_eq]
  intro hid
  exact h (hid ▸ List.mem_map_of_mem Student.ID hd)

theorem find_some_mem (id : ObjectID) (coll : Collection) (d : Student)
    (h : coll.find? (fun x => decide (x.ID = id)) = some d) : d ∈ coll ∧ d.ID = id := by
  refine ⟨List.mem_of_find?_eq_some h, ?_⟩
  have := List.find?_some h
  simpa using this

theorem find_append_new (id : ObjectID) (coll : Collection) (d : Student) (hd : d.ID = id)
    (h : id ∉ ids coll) : (coll ++ [d]).find? (fun x => decide (x.ID = id)) = some d := by
  rw [List.find?_append, find_none_of_not_mem id coll h]
  simp [hd]

theorem removeFirst_of_not_mem (id : ObjectID) (coll : Collection) (h : id ∉ ids coll) :
    removeFirst id coll = coll := by
  induction coll with
  | nil => rfl
  | cons d ds ih =>
    simp only [ids, List.map_cons, List.mem_cons, not_or] at h
    have hne : ¬ d.ID = id := fun e => h.1 e.symm
    simp only [removeFirst, hne, if_false]
    rw [ih h.2]

theorem removeFirst_eq_filter (id : ObjectID) (coll : Collection) (h : (ids coll).Nodup) :
    removeFirst id coll = coll.filter (fun d => decide (d.ID ≠ id)) := by
  induction coll with
  | nil => rfl
  | cons d ds ih =>
    simp only [ids, List.map_cons, List.nodup_cons] at h
    by_cases hd : d.ID = id
    · have hnot : id ∉ ids ds := hd ▸ h.1
      have hall : ∀ x ∈ ds, decide (x.ID ≠ id) = true := by
        intro x hx
        simp only [ne_eq, decide_eq_true_eq]
        intro hxid
        exact hnot (hxid ▸ List.mem_map_of_mem Student.ID hx)
      simp only [removeFirst, hd, if_true, ne_eq, not_true_eq_false, decide_False,
        List.filter_cons_of_neg, Bool.false_eq_true, not_false_eq_true]
      exact (List.filter_eq_self.mpr hall).symm
    · simp only [removeFirst, hd, if_false, ne_eq, not_false_eq_true, decide_True,
        List.filter_cons_of_pos]
      rw [ih h.2]

theorem ids_removeFirst_subset (id : ObjectID) (coll : Collection) :
    ∀ x ∈ removeFirst id coll, x ∈ coll := by
  induction coll with
  | nil => intro x hx; exact hx
  | cons d ds ih =>
    intro x hx
    by_cases hd : d.ID = id
    · simp only [removeFirst, hd, if_true] at hx
      exact List.mem_cons_of_mem _ hx
    · simp only [removeFirst, hd, if_false, List.mem_cons] at hx
      rcases hx with hx | hx
      · exact hx ▸ List.mem_cons_self _ _
      · exact List.mem_cons_of_mem _ (ih x hx)

theorem ids_setFirst (id : ObjectID) (n e : String) (coll : Collection) :
    ids (setFirst id n e coll) = ids coll := by
  induction coll with
  | nil => rfl
  | cons d ds ih =>
    by_cases hd : d.ID = id
    · simp only [setFirst, hd, if_true, ids, List.map_cons]
    · simp only [setFirst, hd, if_false, ids, List.map_cons] at ih ⊢
      rw [ih]

theorem find_setFirst (id : ObjectID) (n e : String) (coll : Collection) (h : id ∈ ids coll) :
    (setFirst id n e coll).find? (fun x => decide (x.ID = id)) = some ⟨id, n, e⟩ := by
  induction coll with
  | nil => simp [ids] at h
  | cons d ds ih =>
    by_cases hd : d.ID = id
    · simp only [setFirst, hd, if_true, List.find?_cons, decide_True]
    · simp only [ids, List.map_cons, List.mem_cons] at h
      have h2 : id ∈ ids ds := by
        rcases h with h | h
        · exact absurd h.symm hd
        · exact h
      simp only [setFirst, hd, if_false, List.find?_cons, decide_False]
      exact ih h2

theorem getElem_setFirst (id : ObjectID) (n e : String) (coll : Collection) (k : Nat)
    (d : Student) (hk : coll[k]? = some d) (hd : d.ID ≠ id) :
    (setFirst id n e coll)[k]? = some d := by
  induction coll generalizing k with
  | nil => simp at hk
  | cons x xs ih =>
    by_cases hx : x.ID = id
    · cases k with
      | zero =>
        simp only [List.getElem?_cons_zero, Option.some.injEq] at hk
        exact absurd (hk ▸ hx) hd
      | succ k =>
        simp only [List.getElem?_cons_succ] at hk
        simp only [setFirst, hx, if_true, List.getElem?_cons_succ, hk]
    · cases k with
      | zero =>
        simp only [List.getElem?_cons_zero] at hk
        simp only [setFirst, hx, if_false, List.getElem?_cons_zero, hk]
      | succ k =>
        simp only [List.getElem?_cons_succ] at hk
        simp only [setFirst, hx, if_false, List.getElem?_cons_succ]
        exact ih k hk

/-! ### Well-formed identifiers -/

theorem char_le_iff (a b : Char) : a ≤ b ↔ a.toNat ≤ b.toNat := Iff.rfl

theorem digit_bounds : ('0' : Char).toNat = 48 ∧ ('9' : Char).toNat = 57 := ⟨rfl, rfl⟩

theorem lower_bounds : ('a' : Char).toNat = 97 ∧ ('f' : Char).toNat = 102 := ⟨rfl, rfl⟩

theorem upper_bounds : ('A' : Char).toNat = 65 ∧ ('F' : Char).toNat = 70 := ⟨rfl, rfl⟩

theorem hexVal_isSome (c : Char) : (hexVal c).isSome = isHexDigit c := by
  unfold hexVal isHexDigit
  simp only [char_le_iff, digit_bounds.1, digit_bounds.2, lower_bounds.1, lower_bounds.2,
    upper_bounds.1, upper_bounds.2]
  split_ifs <;> simp_all

theorem hexVal_utf8Size (c : Char) (h : (hexVal c).isSome) : c.utf8Size = 1 := by
  have hc : c.toNat ≤ 127 := by
    unfold hexVal at h
    split_ifs at h with h1 h2 h3
    · omega
    · omega
    · omega
    · simp at h
  have hle : c.val ≤ 127 := hc
  exact if_pos hle

theorem hexDecode_all : ∀ (cs : List Char) (bs : List (Fin 256)), hexDecode cs = some bs →
    cs.all isHexDigit = true ∧ cs.length = 2 * bs.length
  | [], bs, h => by
    simp only [hexDecode, Option.some.injEq] at h
    subst h
    simp
  | [_], bs, h => by simp [hexDecode] at h
  | a :: b :: rest, bs, h => by
    simp only [hexDecode] at h
    cases ha : hexVal a with
    | none => simp [ha] at h
    | some x =>
      cases hb : hexVal b with
      | none => simp [ha, hb] at h
      | some y =>
        cases hr : hexDecode rest with
        | none => simp [ha, hb, hr] at h
        | some r =>
          simp only [ha, hb, hr, Option.some.injEq] at h
          subst h
          have := hexDecode_all rest r hr
          have e1 : isHexDigit a = true := by rw [← hexVal_isSome, ha]; rfl
          have e2 : isHexDigit b = true := by rw [← hexVal_isSome, hb]; rfl
          simp only [List.all_cons, e1, e2, this.1, Bool.and_self, List.length_cons, this.2,
            true_and]
          omega

theorem utf8ByteSize_of_hex (cs : List Char) (h : cs.all isHexDigit = true) :
    (String.mk cs).utf8ByteSize = cs.length := by
  induction cs with
  | nil => rfl
  | cons c cs ih =>
    simp only [List.all_cons, Bool.and_eq_true] at h
    have hc : c.utf8Size = 1 := hexVal_utf8Size c (by rw [hexVal_isSome]; exact h.1)
    have := ih h.2
    simp only [String.utf8ByteSize, String.utf8ByteSize.go, hc, List.length_cons] at this ⊢
    omega

theorem hexDecode_of_all (n : Nat) (cs : List Char) (hall : cs.all isHexDigit = true)
    (hlen : cs.length = 2 * n) : ∃ bs, hexDecode cs = some bs ∧ bs.length = n := by
  induction n generalizing cs with
  | zero =>
    have : cs = [] := List.length_eq_zero.mp (by omega)
    subst this
    exact ⟨[], rfl, rfl⟩
  | succ n ih =>
    match cs, hlen, hall with
    | a :: b :: rest, hlen, hall =>
      simp only [List.all_cons, Bool.and_eq_true] at hall
      simp only [List.length_cons] at hlen
      obtain ⟨bs, hbs, hl⟩ := ih rest hall.2.2 (by omega)
      have ha : (hexVal a).isSome = true := by rw [hexVal_isSome]; exact hall.1
      have hb : (hexVal b).isSome = true := by rw [hexVal_isSome]; exact hall.2.1
      obtain ⟨x, hx⟩ := Option.isSome_iff_exists.mp ha
      obtain ⟨y, hy⟩ := Option.isSome_iff_exists.mp hb
      exact ⟨mkByte x y :: bs, by simp only [hexDecode, hx, hy, hbs], by simp [hl]⟩
    | [], hlen, _ => simp at hlen
    | [_], hlen, _ => simp at hlen; omega

/-- `ObjectIDFromHex` returns an error exactly on the strings that are not
well-formed identifiers. -/
theorem ObjectIDFromHex_error_iff (s : String) :
    (ObjectIDFromHex s).2 ≠ none ↔ IsHexID s = false := by
  obtain ⟨cs⟩ := s
  constructor
  · intro herr
    by_contra hwf
    simp only [IsHexID, Bool.not_eq_false, Bool.and_eq_true, beq_iff_eq, String.length] at hwf
    obtain ⟨bs, hbs, hl⟩ := hexDecode_of_all 12 cs hwf.2 (by omega)
    have hsz : (String.mk cs).utf8ByteSize = 24 := by rw [utf8ByteSize_of_hex cs hwf.2, hwf.1]
    apply herr
    simp only [ObjectIDFromHex, hsz, hbs, hl, ne_eq, not_true_eq_false, if_false, dite_true]
  · intro hwf
    unfold ObjectIDFromHex
    by_cases hsz : (String.mk cs).utf8ByteSize = 24
    · simp only [hsz, ne_eq, not_true_eq_false, if_false]
      cases hd : hexDecode cs with
      | none => simp
      | some bs =>
        exfalso
        have := hexDecode_all cs bs hd
        have h24 : cs.length = 24 := by rw [← utf8ByteSize_of_hex cs this.1]; exact hsz
        simp [IsHexID, String.length, h24, this.1] at hwf
    · simp only [hsz, ne_eq, not_false_eq_true, if_true]
      simp

/-- On a string that is no well-formed identifier the handlers go on with the
zero identifier. -/
theorem ObjectIDFromHex_malformed (s : String) (h : IsHexID s = false) :
    (ObjectIDFromHex s).1 = NilObjectID := by
  have herr := (ObjectIDFromHex_error_iff s).mpr h
  unfold ObjectIDFromHex at herr ⊢
  split_ifs with h1
  · rfl
  · cases hd : hexDecode s.data with
    | none => rfl
    | some bs =>
      simp only [h1, if_false, hd] at herr
      by_cases hl : bs.length = 12
      · simp [hl] at herr
      · simp [hl]

/-! ### Responses -/

theorem cJSON_body (code : Nat) (v : JSON) (h : bodyAllowedForStatus code = true) :
    cJSON code v = ⟨code, some v⟩ := by
  simp only [cJSON, h, if_true]

theorem InsertOne_ok (fault : Option String) (driverID : ObjectID) (coll coll' : Collection)
    (d : Doc) (h : InsertOne fault driverID coll d = .ok coll') :
    fault = none ∧ d.id.getD driverID ∉ ids coll ∧
      coll' = coll ++ [⟨d.id.getD driverID, d.name, d.email⟩] := by
  unfold InsertOne at h
  cases fault with
  | some e => simp at h
  | none =>
    simp only at h
    split_ifs at h with hmem
    simp only [Except.ok.injEq] at h
    exact ⟨rfl, hmem, h.symm⟩

theorem MarshalBSON_id (s : Student) (h : s.ID ≠ NilObjectID) :
    s.MarshalBSON = ⟨some s.ID, s.Name, s.Email⟩ := by
  simp [Student.MarshalBSON, ObjectID.IsZero, h]

/-! ### Create -/

/-- C1: when the body binds to a `Student` and the insert succeeds, `addStudent`
responds 201 with the bound name and email and with the identifier the handler
generated, whatever identifier the body carried; that identifier's hex string
has 24 characters, and when it is not in the store it differs from the
identifier of every record stored before the call. -/
theorem addStudent_created (rawText : JSON → List (Fin 256))
    (newID driverID : ObjectID) (fault : Option String)
    (body : Option JSON) (coll coll' : Collection) (bound : Student)
    (hbind : ShouldBindJSON rawText body = .ok bound)
    (hins : InsertOne fault driverID coll
      (Student.MarshalBSON ⟨newID, bound.Name, bound.Email⟩) = .ok coll') :
    addStudent rawText newID driverID fault body coll
        = (⟨201, some (.obj [("id", .str newID.Hex), ("name", .str bound.Name),
            ("email", .str bound.Email)])⟩, coll')
      ∧ newID.Hex.length = 24
      ∧ (newID ∉ ids coll → ∀ d ∈ coll, d.ID ≠ newID) := by
  refine ⟨?_, Hex_length newID, ?_⟩
  · simp only [addStudent, hbind, hins]
    rw [cJSON_body 201 _ (by decide)]
    rfl
  · intro hnew d hd hid
    exact hnew (hid ▸ List.mem_map_of_mem Student.ID hd)

theorem addStudent_created_witness :
    ShouldBindJSON plainText (some (.obj [("id", .str "ffffffffffffffffffffffff"),
        ("name", .str "John Doe"), ("email", .str "john@example.com")]))
        = .ok ⟨⟨List.replicate 12 255, rfl⟩, "John Doe", "john@example.com"⟩
      ∧ addStudent plainText sampleID otherID none
          (some (.obj [("id", .str "ffffffffffffffffffffffff"), ("name", .str "John Doe"),
            ("email", .str "john@example.com")])) sampleStore.tail
        = (⟨201, some (.obj [("id", .str "654210f00102030405000001"),
              ("name", .str "John Doe"), ("email", .str "john@example.com")])⟩,
            [⟨otherID, "Jane Roe", "jane@example.com"⟩,
              ⟨sampleID, "John Doe", "john@example.com"⟩])
      ∧ ShouldBindJSON plainText (some (.obj [("id", .str "0123456789"), ("name", .str "A")]))
        = .ok ⟨quotedDigits, "A", ""⟩
      ∧ addStudent plainText sampleID otherID none
          (some (.obj [("id", .str "0123456789"), ("name", .str "A")])) []
        = (⟨201, some (.obj [("id", .str "654210f00102030405000001"), ("name", .str "A"),
              ("email", .str "")])⟩, [⟨sampleID, "A", ""⟩]) :=
  ⟨rfl, (addStudent_created plainText sampleID otherID none
    (some (.obj [("id", .str "ffffffffffffffffffffffff"), ("name", .str "John Doe"),
      ("email", .str "john@example.com")])) sampleStore.tail
    [⟨otherID, "Jane Roe", "jane@example.com"⟩, ⟨sampleID, "John Doe", "john@example.com"⟩]
    ⟨⟨List.replicate 12 255, rfl⟩, "John Doe", "john@example.com"⟩ rfl rfl).1,
    rfl,
    (addStudent_created plainText sampleID otherID none
      (some (.obj [("id", .str "0123456789"), ("name", .str "A")])) []
      [⟨sampleID, "A", ""⟩] ⟨quotedDigits, "A", ""⟩ rfl rfl).1⟩

/-- C2: for every store and every payload `{name, email}`, when `addStudent`
responds 201 its body carries the generated identifier, and `getStudentByID`
on the resulting store with the hex string of that identifier responds 200
with that identifier and the payload's name and email. -/
theorem create_then_get (rawText : JSON → List (Fin 256))
    (newID driverID : ObjectID) (fault : Option String)
    (name email : String) (coll : Collection) (hgen : newID ≠ NilObjectID)
    (h201 : (addStudent rawText newID driverID fault
      (some (.obj [("name", .str name), ("email", .str email)])) coll).1.status = 201) :
    (addStudent rawText newID driverID fault
        (some (.obj [("name", .str name), ("email", .str email)])) coll).1.body
      = some (.obj [("id", .str newID.Hex), ("name", .str name), ("email", .str email)])
    ∧ (getStudentByID none newID.Hex (addStudent rawText newID driverID fault
        (some (.obj [("name", .str name), ("email", .str email)])) coll).2).1
      = ⟨200, some (.obj [("id", .str newID.Hex), ("name", .str name),
          ("email", .str email)])⟩ := by
  have hbind : ShouldBindJSON rawText (some (.obj [("name", .str name), ("email", .str email)]))
      = .ok ⟨NilObjectID, name, email⟩ := by
    simp [ShouldBindJSON, Student.UnmarshalJSON, Student.setMembers, Student.setMember, keyIs,
      decodeString, Student.zero]
  have hdoc : Student.MarshalBSON ⟨newID, name, email⟩ = ⟨some newID, name, email⟩ :=
    MarshalBSON_id ⟨newID, name, email⟩ hgen
  cases hins : InsertOne fault driverID coll ⟨some newID, name, email⟩ with
  | error e =>
    simp [addStudent, hbind, hdoc, hins, cJSON] at h201
  | ok coll' =>
    obtain ⟨-, hfresh, hcoll⟩ := InsertOne_ok _ _ _ _ _ hins
    simp only [Option.getD_some] at hfresh hcoll
    have hadd : addStudent rawText newID driverID fault
        (some (.obj [("name", .str name), ("email", .str email)])) coll
        = (⟨201, some (.obj [("id", .str newID.Hex), ("name", .str name),
            ("email", .str email)])⟩, coll') := by
      simp only [addStudent, hbind, hdoc, hins]
      rw [cJSON_body 201 _ (by decide)]
      rfl
    rw [hadd]
    refine ⟨rfl, ?_⟩
    simp only [getStudentByID, ObjectIDFromHex_Hex, FindOne, hcoll,
      find_append_new newID coll ⟨newID, name, email⟩ rfl hfresh]
    rw [cJSON_body 200 _ (by decide)]
    rfl

theorem create_then_get_witness :
    sampleID ≠ NilObjectID
      ∧ (addStudent plainText sampleID otherID none (some johnDoe) []).1.status = 201
      ∧ (getStudentByID none "654210f00102030405000001"
          (addStudent plainText sampleID otherID none (some johnDoe) []).2).1
        = ⟨200, some (.obj [("id", .str "654210f00102030405000001"),
            ("name", .str "John Doe"), ("email", .str "john@example.com")])⟩ :=
  ⟨by decide, by decide,
    (create_then_get plainText sampleID otherID none "John Doe" "john@example.com" [] (by decide)
      (by decide)).2⟩

/-! ### Identifiers present in a reachable collection -/

theorem addStudent_ids (rawText : JSON → List (Fin 256))
    (newID driverID : ObjectID) (fault : Option String) (body : Option JSON)
    (coll : Collection) (hgen : newID ≠ NilObjectID) :
    ∀ x ∈ ids (addStudent rawText newID driverID fault body coll).2, x ∈ ids coll ∨ x = newID := by
  intro x hx
  unfold addStudent at hx
  cases hb : ShouldBindJSON rawText body with
  | error e => simp only [hb] at hx; exact Or.inl hx
  | ok bound =>
    simp only [hb] at hx
    rw [MarshalBSON_id ⟨newID, bound.Name, bound.Email⟩ hgen] at hx
    cases hins : InsertOne fault driverID coll ⟨some newID, bound.Name, bound.Email⟩ with
    | error e => simp only [hins] at hx; exact Or.inl hx
    | ok coll' =>
      simp only [hins] at hx
      obtain ⟨-, -, hcoll⟩ := InsertOne_ok _ _ _ _ _ hins
      simp only [Option.getD_some] at hcoll
      simp only [hcoll, ids, List.map_append, List.map_cons, List.map_nil, List.mem_append,
        List.mem_singleton] at hx
      exact hx

theorem updateStudent_ids (rawText : JSON → List (Fin 256))
    (fault : Option String) (id : String) (body : Option JSON)
    (coll : Collection) : ids (updateStudent rawText fault id body coll).2 = ids coll := by
  unfold updateStudent
  cases hb : ShouldBindJSON rawText body with
  | error e => rfl
  | ok u =>
    simp only
    unfold UpdateOne
    cases fault with
    | some e => rfl
    | none =>
      simp only
      cases hf : coll.find? (fun x => decide (x.ID = (ObjectIDFromHex id).1)) with
      | none => rfl
      | some x =>
        simp only
        cases hj : u.MarshalBSON.id with
        | none => simp only [ids_setFirst]
        | some j =>
          simp only
          split_ifs
          · simp only [ids_setFirst]
          · rfl

theorem deleteStudent_subset (fault : Option String) (id : String) (coll : Collection) :
    ∀ x ∈ (deleteStudent fault id coll).2, x ∈ coll := by
  intro x hx
  unfold deleteStudent DeleteOne at hx
  cases fault with
  | some e => exact hx
  | none => exact ids_removeFirst_subset _ coll x hx

theorem Reachable.nil_not_mem {coll : Collection} (h : Reachable coll) :
    NilObjectID ∉ ids coll := by
  induction h with
  | empty => simp [ids]
  | create rawText newID driverID fault body coll _ hgen ih =>
    intro hmem
    rcases addStudent_ids rawText newID driverID fault body coll hgen _ hmem with h1 | h1
    · exact ih h1
    · exact hgen h1.symm
  | update rawText fault id body coll _ ih => rw [updateStudent_ids]; exact ih
  | delete fault id coll _ ih =>
    intro hmem
    obtain ⟨d, hd, hid⟩ := List.mem_map.mp hmem
    exact ih (hid ▸ List.mem_map_of_mem Student.ID (deleteStudent_subset fault id coll d hd))

theorem getStudentByID_not_found (fault : Option String) (s : String) (coll : Collection)
    (h : (ObjectIDFromHex s).1 ∉ ids coll) :
    getStudentByID fault s coll = (⟨404, some (H "error" "Student not found")⟩, coll) := by
  unfold getStudentByID FindOne
  cases fault with
  | some e => simp only; rw [cJSON_body 404 _ (by decide)]
  | none =>
    simp only [find_none_of_not_mem _ coll h]
    rw [cJSON_body 404 _ (by decide)]

/-! ### Read, delete -/

/-- C3: on a path string that is no well-formed 24-character hex identifier and
a store reached from the empty one through create, update and delete,
`getStudentByID` responds 404 with the message "Student not found", hence
neither 500 nor 200: the lookup runs with the zero identifier, which no
stored record has. -/
theorem getStudentByID_malformed (fault : Option String) (s : String) (coll : Collection)
    (hreach : Reachable coll) (hbad : IsHexID s = false) :
    getStudentByID fault s coll
        = (⟨404, some (.obj [("error", .str "Student not found")])⟩, coll)
      ∧ (getStudentByID fault s coll).1.status ≠ 500
      ∧ (getStudentByID fault s coll).1.status ≠ 200
      ∧ (ObjectIDFromHex s).2 ≠ none
      ∧ (ObjectIDFromHex s).1 = NilObjectID := by
  have hnil := ObjectIDFromHex_malformed s hbad
  have hres := getStudentByID_not_found fault s coll (hnil ▸ hreach.nil_not_mem)
  refine ⟨hres, ?_, ?_, (ObjectIDFromHex_error_iff s).mpr hbad, hnil⟩
  · rw [hres]; simp
  · rw [hres]; simp

theorem getStudentByID_malformed_witness :
    IsHexID "not-an-id" = false
      ∧ Reachable (addStudent plainText sampleID otherID none (some johnDoe) []).2
      ∧ getStudentByID none "not-an-id" (addStudent plainText sampleID otherID none (some johnDoe) []).2
        = (⟨404, some (.obj [("error", .str "Student not found")])⟩,
            [⟨sampleID, "John Doe", "john@example.com"⟩]) :=
  ⟨by decide,
    Reachable.create plainText sampleID otherID none (some johnDoe) [] Reachable.empty (by decide),
    (getStudentByID_malformed none "not-an-id" _
      (Reachable.create plainText sampleID otherID none (some johnDoe) [] Reachable.empty (by decide))
      (by decide)).1⟩

/-- C4: for every store (identifiers unique, as the store keeps them) and every
identifier string, once `deleteStudent` on the string has responded 204,
`getStudentByID` on the same string against the resulting store responds
404. -/
theorem delete_then_get (f1 f2 : Option String) (s : String) (coll : Collection)
    (hwf : (ids coll).Nodup) (h204 : (deleteStudent f1 s coll).1.status = 204) :
    (getStudentByID f2 s (deleteStudent f1 s coll).2).1
      = ⟨404, some (.obj [("error", .str "Student not found")])⟩ := by
  cases f1 with
  | some e => simp [deleteStudent, DeleteOne, cJSON] at h204
  | none =>
    have hgone : (ObjectIDFromHex s).1 ∉ ids (deleteStudent none s coll).2 := by
      simp only [deleteStudent, DeleteOne, removeFirst_eq_filter _ coll hwf, ids]
      intro hmem
      obtain ⟨d, hd, hid⟩ := List.mem_map.mp hmem
      simp only [ne_eq, List.mem_filter, decide_eq_true_eq] at hd
      exact hd.2 hid
    rw [getStudentByID_not_found f2 s _ hgone]
    rfl

theorem delete_then_get_witness :
    (ids sampleStore).Nodup
      ∧ (deleteStudent none "654210f00102030405000001" sampleStore).1.status = 204
      ∧ (getStudentByID none "654210f00102030405000001"
          (deleteStudent none "654210f00102030405000001" sampleStore).2).1
        = ⟨404, some (.obj [("error", .str "Student not found")])⟩ :=
  ⟨by decide, by decide,
    delete_then_get none none "654210f00102030405000001" sampleStore (by decide) (by decide)⟩

theorem removeFirst_eq_erase (coll : Collection) (d : Student) (hwf : (ids coll).Nodup)
    (hd : d ∈ coll) : removeFirst d.ID coll = coll.erase d := by
  induction coll with
  | nil => simp at hd
  | cons x xs ih =>
    simp only [ids, List.map_cons, List.nodup_cons] at hwf
    by_cases hx : x.ID = d.ID
    · have hxd : x = d := by
        rcases List.mem_cons.mp hd with h | h
        · exact h.symm
        · exact absurd (hx ▸ List.mem_map_of_mem Student.ID h) hwf.1
      subst hxd
      simp only [removeFirst, if_true, List.erase_cons_head]
    · have hne : x ≠ d := fun e => hx (e ▸ rfl)
      have hmem : d ∈ xs := by
        rcases List.mem_cons.mp hd with h | h
        · exact absurd h.symm hne
        · exact h
      simp only [removeFirst, hx, if_false]
      rw [List.erase_cons_tail (by simpa using hne), ih hwf.2 hmem]

theorem nodup_of_ids_nodup (coll : Collection) (h : (ids coll).Nodup) : coll.Nodup :=
  List.Nodup.of_map Student.ID h

/-- C9, amended: when the store delete call does not fail, `deleteStudent`
responds 204 with no body, never 404. On a string that matches no stored
record the store is left as it was; a string that is no well-formed
identifier is looked up as the zero identifier and so leaves a store that
holds no record with the zero identifier as it was. On a string that matches
a record, that record is removed and all others stay, in their order. -/
theorem deleteStudent_frame (s : String) (coll : Collection) (hwf : (ids coll).Nodup) :
    (deleteStudent none s coll).1 = ⟨204, none⟩
      ∧ ((ObjectIDFromHex s).1 ∉ ids coll → (deleteStudent none s coll).2 = coll)
      ∧ (IsHexID s = false → NilObjectID ∉ ids coll → (deleteStudent none s coll).2 = coll)
      ∧ (∀ d ∈ coll, d.ID = (ObjectIDFromHex s).1 →
          (deleteStudent none s coll).2 = coll.erase d
            ∧ d ∉ (deleteStudent none s coll).2
            ∧ ∀ x ∈ coll, x ≠ d → x ∈ (deleteStudent none s coll).2) := by
  have hresp : (deleteStudent none s coll).1 = ⟨204, none⟩ := rfl
  have hstore : (deleteStudent none s coll).2 = removeFirst (ObjectIDFromHex s).1 coll := rfl
  refine ⟨hresp, ?_, ?_, ?_⟩
  · intro h
    rw [hstore, removeFirst_of_not_mem _ coll h]
  · intro hbad hnil
    rw [hstore, ObjectIDFromHex_malformed s hbad, removeFirst_of_not_mem _ coll hnil]
  · intro d hd hid
    have he : (deleteStudent none s coll).2 = coll.erase d := by
      rw [hstore, ← hid, removeFirst_eq_erase coll d hwf hd]
    have hnd := nodup_of_ids_nodup coll hwf
    refine ⟨he, ?_, ?_⟩
    · rw [he]; exact fun h => ((List.Nodup.mem_erase_iff hnd).mp h).1 rfl
    · intro x hx hne
      rw [he]; exact (List.mem_erase_of_ne hne).mpr hx

theorem deleteStudent_frame_witness :
    (ids sampleStore).Nodup
      ∧ (deleteStudent none "654210f00102030405000001" sampleStore).1 = ⟨204, none⟩
      ∧ (deleteStudent none "654210f00102030405000001" sampleStore).2
        = [⟨otherID, "Jane Roe", "jane@example.com"⟩]
      ∧ (deleteStudent none "not-an-id" sampleStore).2 = sampleStore
      ∧ (deleteStudent none "654210f00102030405000003" sampleStore).2 = sampleStore :=
  ⟨by decide,
    (deleteStudent_frame "654210f00102030405000001" sampleStore (by decide)).1,
    ((deleteStudent_frame "654210f00102030405000001" sampleStore (by decide)).2.2.2
      ⟨sampleID, "John Doe", "john@example.com"⟩ (by decide) (by decide)).1,
    (deleteStudent_frame "not-an-id" sampleStore (by decide)).2.2.1 (by decide) (by decide),
    (deleteStudent_frame "654210f00102030405000003" sampleStore (by decide)).2.1 (by decide)⟩

/-- C9, as stated, fails: a string that is no well-formed identifier is looked
up as the zero identifier, and on a store that holds a record with the zero
identifier `deleteStudent` removes that record. -/
theorem deleteStudent_malformed_removes :
    IsHexID "not-an-id" = false
      ∧ (ids [⟨NilObjectID, "Zero", "zero@example.com"⟩]).Nodup
      ∧ deleteStudent none "not-an-id" [⟨NilObjectID, "Zero", "zero@example.com"⟩]
        = (⟨204, none⟩, []) :=
  ⟨by decide, by decide, rfl⟩

/-- C6: on the empty collection `getAllStudents` responds 200 with the JSON
value `null`, not with an empty array: `students` is still the nil slice when
it is encoded. -/
theorem getAllStudents_empty :
    getAllStudents none [] = (⟨200, some JSON.null⟩, [])
      ∧ (getAllStudents none []).1.body ≠ some (JSON.arr []) := by
  refine ⟨rfl, ?_⟩
  intro h
  have h2 : (getAllStudents none []).1.body = some JSON.null := rfl
  rw [h2] at h
  cases h

/-! ### Decoding a body -/

theorem keyIs_id_name (k : String) (h : keyIs k "id" = true) : keyIs k "name" = false := by
  simp only [keyIs, beq_iff_eq] at h
  simp only [keyIs, h]
  decide

theorem keyIs_id_email (k : String) (h : keyIs k "id" = true) : keyIs k "email" = false := by
  simp only [keyIs, beq_iff_eq] at h
  simp only [keyIs, h]
  decide

theorem keyIs_name_email (k : String) (h : keyIs k "name" = true) : keyIs k "email" = false := by
  simp only [keyIs, beq_iff_eq] at h
  simp only [keyIs, h]
  decide

theorem decodeString_eq (cur : String) (v : JSON) (n : String)
    (h : decodeString cur v = .ok n) :
    n = v.text.getD cur := by
  cases v <;> simp only [decodeString, Except.ok.injEq, reduceCtorEq] at h <;>
    simp only [h, JSON.text, Option.getD_some, Option.getD_none]

/-- What one member does to the three fields. -/
theorem setMember_fields (rawText : JSON → List (Fin 256)) (st st' : Student) (kv : String × JSON)
    (h : Student.setMember rawText st kv = .ok st') :
    (keyIs kv.1 "id" = false → st'.ID = st.ID)
      ∧ st'.Name = (if keyIs kv.1 "name" then kv.2.text else none).getD st.Name
      ∧ st'.Email = (if keyIs kv.1 "email" then kv.2.text else none).getD st.Email := by
  unfold Student.setMember at h
  by_cases hid : keyIs kv.1 "id" = true
  · simp only [hid, if_true] at h
    cases hu : ObjectID.UnmarshalJSON (rawText kv.2) st.ID kv.2 with
    | error e => simp [hu] at h
    | ok i =>
      simp only [hu, Except.ok.injEq] at h
      subst h
      refine ⟨fun hf => ?_, ?_, ?_⟩
      · rw [hid] at hf; cases hf
      · rw [keyIs_id_name _ hid]; rfl
      · rw [keyIs_id_email _ hid]; rfl
  · simp only [hid, Bool.false_eq_true, if_false] at h
    by_cases hn : keyIs kv.1 "name" = true
    · simp only [hn, if_true] at h
      cases hu : decodeString st.Name kv.2 with
      | error e => simp [hu] at h
      | ok n =>
        simp only [hu, Except.ok.injEq] at h
        subst h
        have := decodeString_eq _ _ _ hu
        refine ⟨fun _ => rfl, ?_, ?_⟩
        · rw [hn]; exact this
        · rw [keyIs_name_email _ hn]; rfl
    · simp only [hn, Bool.false_eq_true, if_false] at h
      by_cases he : keyIs kv.1 "email" = true
      · simp only [he, if_true] at h
        cases hu : decodeString st.Email kv.2 with
        | error e => simp [hu] at h
        | ok m =>
          simp only [hu, Except.ok.injEq] at h
          subst h
          have := decodeString_eq _ _ _ hu
          have hn' : keyIs kv.1 "name" = false := by simpa using hn
          refine ⟨fun _ => rfl, ?_, ?_⟩
          · rw [hn']; rfl
          · rw [he]; exact this
      · simp only [he, Bool.false_eq_true, if_false, Except.ok.injEq] at h
        subst h
        have hn' : keyIs kv.1 "name" = false := by simpa using hn
        have he' : keyIs kv.1 "email" = false := by simpa using he
        refine ⟨fun _ => rfl, ?_, ?_⟩
        · rw [hn']; rfl
        · rw [he']; rfl

/-- The fields after all members: the identifier is untouched when no member
is named `id`, and each text field holds what the body gives for it, or what
it held before. -/
theorem setMembers_fields (rawText : JSON → List (Fin 256))
    (ms : List (String × JSON)) (st st' : Student)
    (h : Student.setMembers rawText st ms = .ok st') :
    ((∀ kv ∈ ms, keyIs kv.1 "id" = false) → st'.ID = st.ID)
      ∧ st'.Name = (given "name" ms).getD st.Name
      ∧ st'.Email = (given "email" ms).getD st.Email := by
  induction ms generalizing st with
  | nil =>
    simp only [Student.setMembers, Except.ok.injEq] at h
    subst h
    simp [given]
  | cons kv rest ih =>
    obtain ⟨k, v⟩ := kv
    simp only [Student.setMembers] at h
    cases h1 : Student.setMember rawText st (k, v) with
    | error e => simp [h1] at h
    | ok st1 =>
      simp only [h1] at h
      obtain ⟨i1, n1, e1⟩ := setMember_fields rawText st st1 (k, v) h1
      obtain ⟨i2, n2, e2⟩ := ih st1 h
      refine ⟨?_, ?_, ?_⟩
      · intro hno
        rw [i2 (fun kv hkv => hno kv (List.mem_cons_of_mem _ hkv)),
          i1 (hno (k, v) (List.mem_cons_self _ _))]
      · rw [n2, n1]
        simp only [given]
        cases given "name" rest <;> rfl
      · rw [e2, e1]
        simp only [given]
        cases given "email" rest <;> rfl

theorem given_none (field : String) (ms : List (String × JSON))
    (h : ∀ kv ∈ ms, keyIs kv.1 field = false) : given field ms = none := by
  induction ms with
  | nil => rfl
  | cons kv rest ih =>
    obtain ⟨k, v⟩ := kv
    have hk : keyIs k field = false := h (k, v) (List.mem_cons_self _ _)
    simp only [given, ih (fun kv hkv => h kv (List.mem_cons_of_mem _ hkv)), hk,
      Bool.false_eq_true, if_false]

theorem UnmarshalJSON_ok_indep (raw : List (Fin 256)) (a b : ObjectID) (v : JSON) :
    (∃ i, ObjectID.UnmarshalJSON raw a v = .ok i) →
      ∃ i, ObjectID.UnmarshalJSON raw b v = .ok i := by
  cases v <;> simp [ObjectID.UnmarshalJSON]

theorem decodeString_ok_indep (a b : String) (v : JSON) :
    (∃ n, decodeString a v = .ok n) → ∃ n, decodeString b v = .ok n := by
  cases v <;> simp [decodeString]

/-- Whether a member can be stored does not depend on what the struct holds. -/
theorem setMember_ok_of_decodes (rawText : JSON → List (Fin 256))
    (st : Student) (kv : String × JSON) (h : decodes rawText kv = true) :
    ∃ st', Student.setMember rawText st kv = .ok st' := by
  unfold decodes at h
  cases h0 : Student.setMember rawText Student.zero kv with
  | error e => simp [h0] at h
  | ok z =>
    unfold Student.setMember at h0 ⊢
    by_cases hid : keyIs kv.1 "id" = true
    · simp only [hid, if_true] at h0 ⊢
      cases hu : ObjectID.UnmarshalJSON (rawText kv.2) Student.zero.ID kv.2 with
      | error e => simp [hu] at h0
      | ok i =>
        obtain ⟨j, hj⟩ := UnmarshalJSON_ok_indep (rawText kv.2) Student.zero.ID st.ID kv.2 ⟨i, hu⟩
        rw [hj]
        exact ⟨_, rfl⟩
    · simp only [hid, Bool.false_eq_true, if_false] at h0 ⊢
      by_cases hn : keyIs kv.1 "name" = true
      · simp only [hn, if_true] at h0 ⊢
        cases hu : decodeString Student.zero.Name kv.2 with
        | error e => simp [hu] at h0
        | ok n =>
          obtain ⟨m, hm⟩ := decodeString_ok_indep Student.zero.Name st.Name kv.2 ⟨n, hu⟩
          rw [hm]
          exact ⟨_, rfl⟩
      · simp only [hn, Bool.false_eq_true, if_false] at h0 ⊢
        by_cases he : keyIs kv.1 "email" = true
        · simp only [he, if_true] at h0 ⊢
          cases hu : decodeString Student.zero.Email kv.2 with
          | error e => simp [hu] at h0
          | ok n =>
            obtain ⟨m, hm⟩ := decodeString_ok_indep Student.zero.Email st.Email kv.2 ⟨n, hu⟩
            rw [hm]
            exact ⟨_, rfl⟩
        · simp only [he, Bool.false_eq_true, if_false]
          exact ⟨st, rfl⟩

/-- An object all of whose members can be stored decodes. -/
theorem setMembers_ok (rawText : JSON → List (Fin 256)) (ms : List (String × JSON)) (st : Student)
    (h : ∀ kv ∈ ms, decodes rawText kv = true) : ∃ st', Student.setMembers rawText st ms = .ok st' := by
  induction ms generalizing st with
  | nil => exact ⟨st, rfl⟩
  | cons kv rest ih =>
    obtain ⟨st1, h1⟩ := setMember_ok_of_decodes rawText st kv (h kv (List.mem_cons_self _ _))
    obtain ⟨st2, h2⟩ := ih st1 (fun x hx => h x (List.mem_cons_of_mem _ hx))
    exact ⟨st2, by simp only [Student.setMembers, h1, h2]⟩

theorem bind_name_email (rawText : JSON → List (Fin 256)) (name email : String) :
    ShouldBindJSON rawText (some (.obj [("name", .str name), ("email", .str email)]))
      = .ok ⟨NilObjectID, name, email⟩ := by
  simp [ShouldBindJSON, Student.UnmarshalJSON, Student.setMembers, Student.setMember, keyIs,
    decodeString, Student.zero]

/-- What a bound body holds: no identifier when the body names none, and for
each text field what the body gives, the empty string when it gives none. -/
theorem bind_fields (rawText : JSON → List (Fin 256)) (body : JSON) (bound : Student)
    (h : ShouldBindJSON rawText (some body) = .ok bound) :
    ((∀ kv ∈ body.members, keyIs kv.1 "id" = false) → bound.ID = NilObjectID)
      ∧ bound.Name = (given "name" body.members).getD ""
      ∧ bound.Email = (given "email" body.members).getD "" := by
  cases body with
  | obj ms => exact setMembers_fields rawText ms Student.zero bound h
  | null =>
    simp only [ShouldBindJSON, Student.UnmarshalJSON, Except.ok.injEq] at h
    subst h
    exact ⟨fun _ => rfl, rfl, rfl⟩
  | bool b => simp [ShouldBindJSON, Student.UnmarshalJSON] at h
  | num l => simp [ShouldBindJSON, Student.UnmarshalJSON] at h
  | str t => simp [ShouldBindJSON, Student.UnmarshalJSON] at h
  | arr xs => simp [ShouldBindJSON, Student.UnmarshalJSON] at h

/-! ### Update -/

/-- C5, amended: when the body binds and the store write does not fail,
`updateStudent` responds 200 and the response body is the encoding of the
bound `Student`: the members `id`, `name`, `email`, the identifier as a hex
string. For every body that names no `id` the identifier is 24 zeros and name
and email are what the body gives, the empty string where it gives none; for
the body `{"name":X,"email":Y}` that is
`{"id":"000000000000000000000000","name":X,"email":Y}`. -/
theorem updateStudent_response (rawText : JSON → List (Fin 256)) (fault : Option String)
    (id : String) (body : Option JSON) (coll coll' : Collection) (bound : Student)
    (X Y : String)
    (hbind : ShouldBindJSON rawText body = .ok bound)
    (hupd : UpdateOne fault coll (ObjectIDFromHex id).1 bound.MarshalBSON = .ok coll') :
    updateStudent rawText fault id body coll
        = (⟨200, some (.obj [("id", .str bound.ID.Hex), ("name", .str bound.Name),
            ("email", .str bound.Email)])⟩, coll')
      ∧ (∀ v : JSON, body = some v → (∀ kv ∈ v.members, keyIs kv.1 "id" = false) →
          (updateStudent rawText fault id body coll).1.body
            = some (.obj [("id", .str "000000000000000000000000"),
                ("name", .str ((given "name" v.members).getD "")),
                ("email", .str ((given "email" v.members).getD ""))]))
      ∧ (body = some (.obj [("name", .str X), ("email", .str Y)]) →
          (updateStudent rawText fault id body coll).1.body
            = some (.obj [("id", .str "000000000000000000000000"), ("name", .str X),
                ("email", .str Y)])) := by
  have hresp : updateStudent rawText fault id body coll
      = (⟨200, some (.obj [("id", .str bound.ID.Hex), ("name", .str bound.Name),
          ("email", .str bound.Email)])⟩, coll') := by
    simp only [updateStudent, hbind, hupd]
    rw [cJSON_body 200 _ (by decide)]
    rfl
  refine ⟨hresp, ?_, ?_⟩
  · intro v hbody hnoid
    subst hbody
    obtain ⟨hid, hname, hemail⟩ := bind_fields rawText v bound hbind
    rw [hresp, ← hname, ← hemail, hid hnoid]
    rfl
  · intro hbody
    subst hbody
    rw [bind_name_email] at hbind
    simp only [Except.ok.injEq] at hbind
    subst hbind
    rw [hresp]
    rfl

/-- C5, as stated, fails: on the body `{"name":"X","email":"Y"}` against a
stored identifier the response is 200 with an added `id` member, not the
submitted body. -/
theorem updateStudent_not_verbatim :
    (updateStudent plainText none sampleID.Hex (some (.obj [("name", .str "X"), ("email", .str "Y")]))
        sampleStore).1
      = ⟨200, some (.obj [("id", .str "000000000000000000000000"), ("name", .str "X"),
          ("email", .str "Y")])⟩
    ∧ (updateStudent plainText none sampleID.Hex (some (.obj [("name", .str "X"), ("email", .str "Y")]))
        sampleStore).1.body
      ≠ some (.obj [("name", .str "X"), ("email", .str "Y")]) := by
  have h : (updateStudent plainText none sampleID.Hex
      (some (.obj [("name", .str "X"), ("email", .str "Y")])) sampleStore).1
      = ⟨200, some (.obj [("id", .str "000000000000000000000000"), ("name", .str "X"),
          ("email", .str "Y")])⟩ := by rfl
  refine ⟨h, ?_⟩
  rw [h]
  simp

/-- C10: for a stored identifier `i` and a body that binds and names no `id`,
`updateStudent` on the hex string of `i` responds 200 and afterwards
`getStudentByID` on `i` responds 200 with identifier `i` and, for name and
email, what the body gives, the empty string where it gives none; the stored
identifiers are the same and every record with another identifier is where
and what it was. -/
theorem updateStudent_replaces (rawText : JSON → List (Fin 256))
    (i : ObjectID) (body : JSON) (coll : Collection)
    (bound : Student) (hi : i ∈ ids coll)
    (hnoid : ∀ kv ∈ body.members, keyIs kv.1 "id" = false)
    (hbind : ShouldBindJSON rawText (some body) = .ok bound) :
    (updateStudent rawText none i.Hex (some body) coll).1.status = 200
      ∧ (getStudentByID none i.Hex (updateStudent rawText none i.Hex (some body) coll).2).1
          = ⟨200, some (.obj [("id", .str i.Hex),
              ("name", .str ((given "name" body.members).getD "")),
              ("email", .str ((given "email" body.members).getD ""))])⟩
      ∧ ids (updateStudent rawText none i.Hex (some body) coll).2 = ids coll
      ∧ (∀ (k : Nat) (d : Student), coll[k]? = some d → d.ID ≠ i →
          (updateStudent rawText none i.Hex (some body) coll).2[k]? = some d) := by
  obtain ⟨hid, hname, hemail⟩ := bind_fields rawText body bound hbind
  have hdoc : bound.MarshalBSON = ⟨none, bound.Name, bound.Email⟩ := by
    simp [Student.MarshalBSON, ObjectID.IsZero, hid hnoid]
  have hfind : ∃ x, coll.find? (fun x => decide (x.ID = i)) = some x := by
    cases hf : coll.find? (fun x => decide (x.ID = i)) with
    | some x => exact ⟨x, rfl⟩
    | none =>
      exfalso
      obtain ⟨d, hd, hdi⟩ := List.mem_map.mp hi
      have := List.find?_eq_none.mp hf d hd
      simp [hdi] at this
  obtain ⟨x, hx⟩ := hfind
  have hupd : UpdateOne none coll i bound.MarshalBSON
      = .ok (setFirst i bound.Name bound.Email coll) := by
    simp only [UpdateOne, hx, hdoc]
  have hres : updateStudent rawText none i.Hex (some body) coll
      = (⟨200, some bound.MarshalJSON⟩, setFirst i bound.Name bound.Email coll) := by
    simp only [updateStudent, hbind, ObjectIDFromHex_Hex, hupd]
    rw [cJSON_body 200 _ (by decide)]
  rw [hres]
  refine ⟨rfl, ?_, ids_setFirst _ _ _ _, ?_⟩
  · simp only [getStudentByID, ObjectIDFromHex_Hex, FindOne, find_setFirst i _ _ coll hi]
    rw [cJSON_body 200 _ (by decide), ← hname, ← hemail]
    rfl
  · intro k d hk hd
    exact getElem_setFirst i _ _ coll k d hk hd

/-! ### Fields left out of a create request -/

/-- C8, amended: `name` and `email` are not required. An object body whose
members can all be stored binds, also when it has no `name` (or no `email`)
member; the field left out is the empty string, `addStudent` does not respond
400 and, when the insert succeeds, responds 201 with the record holding that
empty field. A body that fails to bind gets 400 and nothing is inserted. -/
theorem addStudent_missing_field (rawText : JSON → List (Fin 256))
    (newID driverID : ObjectID) (fault : Option String)
    (ms : List (String × JSON)) (coll : Collection)
    (hdec : ∀ kv ∈ ms, decodes rawText kv = true) :
    (∃ bound, ShouldBindJSON rawText (some (.obj ms)) = .ok bound
        ∧ ((∀ kv ∈ ms, keyIs kv.1 "name" = false) → bound.Name = "")
        ∧ ((∀ kv ∈ ms, keyIs kv.1 "email" = false) → bound.Email = "")
        ∧ (addStudent rawText newID driverID fault (some (.obj ms)) coll).1.status ≠ 400
        ∧ (∀ coll', InsertOne fault driverID coll
              (Student.MarshalBSON ⟨newID, bound.Name, bound.Email⟩) = .ok coll' →
            addStudent rawText newID driverID fault (some (.obj ms)) coll
              = (⟨201, some (.obj [("id", .str newID.Hex), ("name", .str bound.Name),
                  ("email", .str bound.Email)])⟩, coll')))
      ∧ (∀ (body : Option JSON) (e : String), ShouldBindJSON rawText body = .error e →
          addStudent rawText newID driverID fault body coll
            = (⟨400, some (.obj [("error", .str e)])⟩, coll)) := by
  constructor
  · obtain ⟨bound, hb⟩ := setMembers_ok rawText ms Student.zero hdec
    have hbind : ShouldBindJSON rawText (some (.obj ms)) = .ok bound := hb
    obtain ⟨-, hname, hemail⟩ := bind_fields rawText (.obj ms) bound hbind
    refine ⟨bound, hbind, ?_, ?_, ?_, ?_⟩
    · intro h
      rw [hname]
      simp only [JSON.members, given_none "name" ms h, Option.getD_none]
    · intro h
      rw [hemail]
      simp only [JSON.members, given_none "email" ms h, Option.getD_none]
    · simp only [addStudent, hbind]
      cases InsertOne fault driverID coll
        (Student.MarshalBSON ⟨newID, bound.Name, bound.Email⟩) <;> simp [cJSON]
    · intro coll' hins
      simp only [addStudent, hbind, hins]
      rw [cJSON_body 201 _ (by decide)]
      rfl
  · intro body e hbind
    simp only [addStudent, hbind]
    rw [cJSON_body 400 _ (by decide)]
    rfl

/-- C8, as stated, fails: a body without `name`, and one without `email`, is
bound, answered with 201 and stored with the empty string in that field. -/
theorem addStudent_accepts_missing_name :
    addStudent plainText sampleID otherID none (some (.obj [("email", .str "john@example.com")])) []
        = (⟨201, some (.obj [("id", .str sampleID.Hex), ("name", .str ""),
            ("email", .str "john@example.com")])⟩, [⟨sampleID, "", "john@example.com"⟩])
      ∧ addStudent plainText sampleID otherID none (some (.obj [("name", .str "John Doe")])) []
        = (⟨201, some (.obj [("id", .str sampleID.Hex), ("name", .str "John Doe"),
            ("email", .str "")])⟩, [⟨sampleID, "John Doe", ""⟩]) :=
  ⟨rfl, rfl⟩

/-! ### Listing after a history of creates and deletes -/

theorem foldl_append_some (docs xs : List Student) :
    docs.foldl Slice.append (some xs) = some (xs ++ docs) := by
  induction docs generalizing xs with
  | nil => simp
  | cons d ds ih => simp only [List.foldl_cons, Slice.append, ih, List.append_assoc,
      List.singleton_append]

theorem foldl_append_none (docs : List Student) :
    (docs.foldl Slice.append none).elems = docs
      ∧ (docs.foldl Slice.append none).len = docs.length
      ∧ (docs ≠ [] → docs.foldl Slice.append none = some docs)
      ∧ (docs = [] → docs.foldl Slice.append none = none) := by
  cases docs with
  | nil => exact ⟨rfl, rfl, fun h => absurd rfl h, fun _ => rfl⟩
  | cons d ds =>
    have : (d :: ds).foldl Slice.append none = some (d :: ds) := by
      simp only [List.foldl_cons, Slice.append, foldl_append_some, List.singleton_append]
    rw [this]
    exact ⟨rfl, rfl, fun _ => rfl, fun h => by cases h⟩

theorem addStudent_201 (rawText : JSON → List (Fin 256))
    (n d : ObjectID) (f : Option String) (b : Option JSON)
    (coll : Collection) (hgen : n ≠ NilObjectID)
    (h : (addStudent rawText n d f b coll).1.status = 201) :
    ∃ bound, ShouldBindJSON rawText b = .ok bound
      ∧ (addStudent rawText n d f b coll).2 = coll ++ [⟨n, bound.Name, bound.Email⟩]
      ∧ n ∉ ids coll := by
  unfold addStudent at h ⊢
  cases hb : ShouldBindJSON rawText b with
  | error e => simp [hb, cJSON] at h
  | ok bound =>
    simp only [hb] at h ⊢
    rw [MarshalBSON_id ⟨n, bound.Name, bound.Email⟩ hgen] at h ⊢
    cases hins : InsertOne f d coll ⟨some n, bound.Name, bound.Email⟩ with
    | error e => simp [hins, cJSON] at h
    | ok coll' =>
      obtain ⟨-, hfresh, hcoll⟩ := InsertOne_ok _ _ _ _ _ hins
      simp only [Option.getD_some] at hfresh hcoll
      exact ⟨bound, rfl, hcoll, hfresh⟩

theorem deleteStudent_204 (f : Option String) (s : String) (coll : Collection)
    (hwf : (ids coll).Nodup) (h : (deleteStudent f s coll).1.status = 204) :
    (deleteStudent f s coll).2
      = coll.filter (fun d => decide (d.ID ≠ (ObjectIDFromHex s).1)) := by
  cases f with
  | some e => simp [deleteStudent, DeleteOne, cJSON] at h
  | none =>
    simp only [deleteStudent, DeleteOne]
    exact removeFirst_eq_filter _ coll hwf

theorem ids_filter_nodup (coll : Collection) (p : Student → Bool) (h : (ids coll).Nodup) :
    (ids (coll.filter p)).Nodup :=
  List.Nodup.sublist (List.Sublist.map Student.ID (List.filter_sublist coll)) h

/-- The collection a successful history leaves: the records already there and
the created ones, without those whose identifier a delete targeted. -/
theorem runAll_eq (ops : List Op) (coll : Collection) (seen : List ObjectID)
    (hsub : ∀ x ∈ ids coll, x ∈ seen) (hnd : (ids coll).Nodup)
    (hv : Successful coll seen ops) :
    runAll coll ops
        = (coll ++ createdRecords ops).filter (fun r => decide (r.ID ∉ deletedIDs ops))
      ∧ (ids (createdRecords ops)).Nodup
      ∧ (∀ x ∈ ids (createdRecords ops), x ∉ seen)
      ∧ (∀ i ∈ deletedIDs ops, i ∈ seen ∨ i ∈ ids (createdRecords ops))
      ∧ (createdRecords ops).length = numCreates ops := by
  induction ops generalizing coll seen with
  | nil =>
    refine ⟨?_, ?_, ?_, ?_, rfl⟩
    · simp [runAll, createdRecords, deletedIDs]
    · simp [createdRecords, ids]
    · simp [createdRecords, ids]
    · simp [deletedIDs]
  | cons op rest ih =>
    cases op with
    | create t n d f b =>
      obtain ⟨hgen, hfresh, h201, hrest⟩ := hv
      obtain ⟨bound, hbind, hcoll, hnew⟩ := addStudent_201 t n d f b coll hgen h201
      have hsub1 : ∀ x ∈ ids (addStudent t n d f b coll).2, x ∈ n :: seen := by
        intro x hx
        rw [hcoll] at hx
        simp only [ids, List.map_append, List.map_cons, List.map_nil, List.mem_append,
          List.mem_singleton] at hx
        rcases hx with hx | hx
        · exact List.mem_cons_of_mem _ (hsub x hx)
        · exact hx ▸ List.mem_cons_self _ _
      have hnd1 : (ids (addStudent t n d f b coll).2).Nodup := by
        rw [hcoll]
        simp only [ids, List.map_append, List.map_cons, List.map_nil]
        exact List.Nodup.append hnd (List.nodup_singleton n)
          (List.disjoint_singleton.mpr hnew)
      obtain ⟨e1, e2, e3, e4, e5⟩ := ih _ _ hsub1 hnd1 hrest
      have hcr : createdRecords (Op.create t n d f b :: rest)
          = ⟨n, bound.Name, bound.Email⟩ :: createdRecords rest := by
        simp only [createdRecords, hbind, List.singleton_append]
      rw [hcr]
      refine ⟨?_, ?_, ?_, ?_, ?_⟩
      · simp only [runAll, Op.run, deletedIDs]
        rw [e1, hcoll, List.append_assoc, List.singleton_append]
      · simp only [ids, List.map_cons, List.nodup_cons]
        exact ⟨fun hm => e3 n hm (List.mem_cons_self _ _), e2⟩
      · intro x hx
        simp only [ids, List.map_cons, List.mem_cons] at hx
        rcases hx with hx | hx
        · exact hx ▸ hfresh
        · exact fun hs => e3 x hx (List.mem_cons_of_mem _ hs)
      · intro i hi
        simp only [deletedIDs] at hi
        rcases e4 i hi with h | h
        · rcases List.mem_cons.mp h with h | h
          · exact Or.inr (h ▸ List.mem_cons_self _ _)
          · exact Or.inl h
        · exact Or.inr (List.mem_cons_of_mem _ h)
      · simp only [List.length_cons, numCreates, e5]
    | delete f i =>
      obtain ⟨hseen, h204, hrest⟩ := hv
      have hcoll := deleteStudent_204 f i.Hex coll hnd h204
      rw [ObjectIDFromHex_Hex] at hcoll
      have hsub1 : ∀ x ∈ ids (deleteStudent f i.Hex coll).2, x ∈ seen := by
        intro x hx
        obtain ⟨r, hr, hrx⟩ := List.mem_map.mp hx
        exact hsub x (hrx ▸ List.mem_map_of_mem Student.ID (deleteStudent_subset f _ coll r hr))
      have hnd1 : (ids (deleteStudent f i.Hex coll).2).Nodup := by
        rw [hcoll]; exact ids_filter_nodup coll _ hnd
      obtain ⟨e1, e2, e3, e4, e5⟩ := ih _ _ hsub1 hnd1 hrest
      have hcr : createdRecords (Op.delete f i :: rest) = createdRecords rest := rfl
      rw [hcr]
      refine ⟨?_, e2, e3, ?_, ?_⟩
      · simp only [runAll, Op.run, deletedIDs]
        rw [e1, hcoll, List.filter_append, List.filter_append, List.filter_filter]
        congr 1
        · apply List.filter_congr
          intro r _
          simp only [ne_eq, List.mem_cons, not_or, Bool.decide_and, Bool.and_comm]
        · apply List.filter_congr
          intro r hr
          have hne : r.ID ≠ i := by
            intro heq
            exact e3 r.ID (List.mem_map_of_mem Student.ID hr) (heq ▸ hseen)
          simp only [List.mem_cons, not_or, hne, not_false_eq_true, true_and]
      · intro j hj
        simp only [deletedIDs, List.mem_cons] at hj
        rcases hj with hj | hj
        · exact Or.inl (hj ▸ hseen)
        · exact e4 j hj
      · simp only [numCreates, e5]

/-- Counting after deletions: among records with distinct identifiers, those
whose identifier is not in `del` are as many as all of them less the distinct
members of `del`, when `del` holds only identifiers of the records. -/
theorem length_filter_not_mem (l : List Student) (del : List ObjectID)
    (hnd : (ids l).Nodup) (hsub : ∀ i ∈ del, i ∈ ids l) :
    (l.filter (fun r => decide (r.ID ∉ del))).length = l.length - del.dedup.length := by
  have hsplit := List.length_eq_length_filter_add (l := l) (fun r => decide (r.ID ∉ del))
  have hperm : List.Perm (ids (l.filter (fun r => !decide (r.ID ∉ del)))) del.dedup := by
    rw [List.perm_ext_iff_of_nodup (ids_filter_nodup l _ hnd) (List.nodup_dedup del)]
    intro a
    simp only [ids, List.mem_map, List.mem_filter, Bool.not_eq_true', decide_eq_false_iff_not,
      not_not, List.mem_dedup]
    constructor
    · rintro ⟨r, ⟨-, hr⟩, rfl⟩
      exact hr
    · intro ha
      obtain ⟨r, hr, hra⟩ := List.mem_map.mp (hsub a ha)
      exact ⟨r, ⟨hr, hra ▸ ha⟩, hra⟩
  have hlen := hperm.length_eq
  simp only [ids, List.length_map] at hlen
  omega

/-- The list response after a successful history from the empty store: 200
with the encoding of the slice `students`, whose length is the number of
creates less the number of distinct deleted identifiers and whose elements
are the created records not deleted; the encoding is an array of these
records when there is at least one, and `null` when there is none. -/
theorem list_after_history (ops : List Op) (hv : Successful [] [] ops) :
    ∃ students : Slice Student,
      getAllStudents none (runAll [] ops)
          = (⟨200, some (marshalStudents students)⟩, runAll [] ops)
        ∧ students.len = numCreates ops - (deletedIDs ops).dedup.length
        ∧ students.elems
            = (createdRecords ops).filter (fun r => decide (r.ID ∉ deletedIDs ops))
        ∧ (students.len ≠ 0 →
            marshalStudents students = .arr (students.elems.map Student.MarshalJSON))
        ∧ (students.len = 0 → marshalStudents students = .null) := by
  obtain ⟨e1, e2, -, e4, e5⟩ :=
    runAll_eq ops [] [] (by simp [ids]) (by simp [ids]) hv
  simp only [List.nil_append] at e1
  have hdel : ∀ i ∈ deletedIDs ops, i ∈ ids (createdRecords ops) := by
    intro i hi
    rcases e4 i hi with h | h
    · simp at h
    · exact h
  obtain ⟨s1, s2, s3, s4⟩ := foldl_append_none (runAll [] ops)
  refine ⟨(runAll [] ops).foldl Slice.append none, ?_, ?_, ?_, ?_, ?_⟩
  · simp only [getAllStudents, Find]
    rw [cJSON_body 200 _ (by decide)]
  · rw [s2, e1, length_filter_not_mem _ _ e2 hdel, e5]
  · rw [s1, e1]
  · intro hne
    have hnil : runAll [] ops ≠ [] := by
      intro h
      rw [s2, h] at hne
      exact hne rfl
    rw [s3 hnil]
    rfl
  · intro hz
    have hnil : runAll [] ops = [] := List.length_eq_zero.mp (s2 ▸ hz)
    rw [s4 hnil]
    rfl

theorem list_after_history_witness :
    Successful [] [] sampleHistory
      ∧ runAll [] sampleHistory = [⟨otherID, "Jane Roe", "jane@example.com"⟩]
      ∧ ∃ students : Slice Student,
          getAllStudents none (runAll [] sampleHistory)
              = (⟨200, some (marshalStudents students)⟩, runAll [] sampleHistory)
            ∧ students.len = 2 - 1
            ∧ students.elems = [⟨otherID, "Jane Roe", "jane@example.com"⟩] := by
  have hv : Successful [] [] sampleHistory := by
    simp only [sampleHistory, Successful]
    refine ⟨by decide, by simp, by decide, by decide, by decide, by decide, by decide,
      by decide, trivial⟩
  obtain ⟨students, h1, h2, h3, -, -⟩ := list_after_history sampleHistory hv
  exact ⟨hv, rfl, students, h1, h2, h3⟩

/-- C7: after one successful create and the successful delete of the created
identifier, `getAllStudents` responds 200 with `null`: the claimed sequence of
length 1 - 1 = 0 is not what the handler sends. -/
theorem list_after_create_delete :
    Successful [] [] [Op.create plainText sampleID otherID none (some johnDoe), Op.delete none sampleID]
      ∧ numCreates [Op.create plainText sampleID otherID none (some johnDoe), Op.delete none sampleID]
          - (deletedIDs
              [Op.create plainText sampleID otherID none (some johnDoe), Op.delete none sampleID]).dedup.length
          = 0
      ∧ getAllStudents none
          (runAll [] [Op.create plainText sampleID otherID none (some johnDoe), Op.delete none sampleID])
          = (⟨200, some JSON.null⟩, []) := by
  refine ⟨?_, by decide, rfl⟩
  simp only [Successful]
  refine ⟨by decide, by simp, by decide, by decide, by decide, trivial⟩

theorem updateStudent_response_witness :
    ShouldBindJSON plainText (some (.obj [("name", .str "X"), ("email", .str "Y")]))
        = .ok ⟨NilObjectID, "X", "Y"⟩
      ∧ updateStudent plainText none "654210f00102030405000001"
          (some (.obj [("name", .str "X"), ("email", .str "Y")])) sampleStore
        = (⟨200, some (.obj [("id", .str "000000000000000000000000"), ("name", .str "X"),
              ("email", .str "Y")])⟩,
            [⟨sampleID, "X", "Y"⟩, ⟨otherID, "Jane Roe", "jane@example.com"⟩])
      ∧ (updateStudent plainText none "654210f00102030405000001"
          (some (.obj [("email", .str "Y"), ("note", .num "1")])) sampleStore).1.body
        = some (.obj [("id", .str "000000000000000000000000"), ("name", .str ""),
            ("email", .str "Y")])
      ∧ updateStudent plainText none "654210f00102030405000001"
          (some (.obj [("id", .str "0123456789"), ("name", .str "A")])) []
        = (⟨200, some (.obj [("id", .str "223031323334353637383922"), ("name", .str "A"),
              ("email", .str "")])⟩, []) :=
  ⟨rfl, (updateStudent_response plainText none "654210f00102030405000001"
    (some (.obj [("name", .str "X"), ("email", .str "Y")])) sampleStore
    [⟨sampleID, "X", "Y"⟩, ⟨otherID, "Jane Roe", "jane@example.com"⟩]
    ⟨NilObjectID, "X", "Y"⟩ "X" "Y" rfl rfl).1,
    (updateStudent_response plainText none "654210f00102030405000001"
      (some (.obj [("email", .str "Y"), ("note", .num "1")])) sampleStore
      [⟨sampleID, "", "Y"⟩, ⟨otherID, "Jane Roe", "jane@example.com"⟩]
      ⟨NilObjectID, "", "Y"⟩ "X" "Y" rfl rfl).2.1 _ rfl (by decide),
    (updateStudent_response plainText none "654210f00102030405000001"
      (some (.obj [("id", .str "0123456789"), ("name", .str "A")])) [] []
      ⟨quotedDigits, "A", ""⟩ "X" "Y" rfl rfl).1⟩

theorem updateStudent_replaces_witness :
    sampleID ∈ ids sampleStore
      ∧ ShouldBindJSON plainText (some (.obj [("name", .str "X")])) = .ok ⟨NilObjectID, "X", ""⟩
      ∧ (getStudentByID none sampleID.Hex
          (updateStudent plainText none sampleID.Hex (some (.obj [("name", .str "X")])) sampleStore).2).1
        = ⟨200, some (.obj [("id", .str "654210f00102030405000001"), ("name", .str "X"),
            ("email", .str "")])⟩
      ∧ (updateStudent plainText none sampleID.Hex (some (.obj [("name", .str "X")])) sampleStore).2[1]?
        = some ⟨otherID, "Jane Roe", "jane@example.com"⟩ :=
  ⟨by decide, rfl,
    (updateStudent_replaces plainText sampleID (.obj [("name", .str "X")]) sampleStore
      ⟨NilObjectID, "X", ""⟩ (by decide) (by decide) rfl).2.1,
    (updateStudent_replaces plainText sampleID (.obj [("name", .str "X")]) sampleStore
      ⟨NilObjectID, "X", ""⟩ (by decide) (by decide) rfl).2.2.2 1
      ⟨otherID, "Jane Roe", "jane@example.com"⟩ rfl (by decide)⟩

theorem addStudent_missing_field_witness :
    (∀ kv ∈ [("email", JSON.str "john@example.com")], decodes plainText kv = true)
      ∧ (∃ bound,
          ShouldBindJSON plainText (some (.obj [("email", .str "john@example.com")]))
              = .ok bound
            ∧ bound.Name = ""
            ∧ (addStudent plainText sampleID otherID none
                (some (.obj [("email", .str "john@example.com")])) []).1.status ≠ 400)
      ∧ (∀ kv ∈ [("id", JSON.str "0123456789"), ("name", JSON.str "A")],
          decodes plainText kv = true)
      ∧ (∃ bound,
          ShouldBindJSON plainText (some (.obj [("id", .str "0123456789"), ("name", .str "A")]))
              = .ok bound
            ∧ bound.Email = ""
            ∧ (addStudent plainText sampleID otherID none
                (some (.obj [("id", .str "0123456789"), ("name", .str "A")])) []).1.status
              ≠ 400) :=
  ⟨by decide,
    match (addStudent_missing_field plainText sampleID otherID none
      [("email", JSON.str "john@example.com")] [] (by decide)).1 with
    | ⟨bound, hb, hn, _, h400, _⟩ => ⟨bound, hb, hn (by decide), h400⟩,
    by decide,
    match (addStudent_missing_field plainText sampleID otherID none
      [("id", JSON.str "0123456789"), ("name", JSON.str "A")] [] (by decide)).1 with
    | ⟨bound, hb, _, he, h400, _⟩ => ⟨bound, hb, he (by decide), h400⟩⟩

end StudentAPI
